import Mathlib

/-!
Verification of the sensorfabric-py core components against their
natural-language specification.

The development shallowly embeds the two core modules:

* `sensorfabric/utils.py` — the JSON row-to-column flattener
  (`flatten_json_to_columns` with its nested `_flatten_recursive`) and the
  timestamp annotator (`convert_dict_timestamps` with `_is_timestamp_key`,
  `_convert_unix_to_iso8601`, `_process_timestamp_value`, `_process_dict`,
  `_process_list`).
* `sensorfabric/athena.py` — the query-execution client
  (`queryResults`, `execQuery`, `_cacheFileName`).

Python values are modelled by a mutual inductive `JSON` type (so that all
recursions are structural and reduce in the kernel); Python dicts are
modelled as insertion-ordered association lists with first-occurrence
lookup and in-place update, exactly matching CPython dict semantics.
Machine-level 32-bit arithmetic (MD5) is modelled on `Nat` with explicit
reduction modulo `2 ^ 32`.
-/

set_option autoImplicit false

namespace SensorFabric

/-! ## Python dict primitives

CPython dicts preserve insertion order; assigning to an existing key keeps
its position, assigning to a fresh key appends it.  `dict.update` assigns
every key of the right operand in order.  Lookup returns the value of the
(unique) matching key; on our association lists this is the first match. -/

/-- `d[k] = v` on an insertion-ordered dict modelled as an association list:
an existing key keeps its position and is overwritten, a new key is appended. -/
def dictSet {α : Type} (d : List (String × α)) (k : String) (v : α) :
    List (String × α) :=
  if (d.lookup k).isSome then
    d.map (fun p => if p.1 = k then (k, v) else p)
  else
    d ++ [(k, v)]

/-- `d.update(e)` on insertion-ordered dicts: assign every binding of `e`
into `d` in order. -/
def dictUpdate {α : Type} (d e : List (String × α)) : List (String × α) :=
  e.foldl (fun acc p => dictSet acc p.1 p.2) d

/-- The keys of a dict, in insertion order. -/
def keysOf {α : Type} (d : List (String × α)) : List String :=
  d.map Prod.fst

@[simp]
theorem keysOf_nil {α : Type} : keysOf ([] : List (String × α)) = [] := rfl

@[simp]
theorem keysOf_cons {α : Type} (p : String × α) (d : List (String × α)) :
    keysOf (p :: d) = p.1 :: keysOf d := rfl

@[simp]
theorem keysOf_append {α : Type} (d e : List (String × α)) :
    keysOf (d ++ e) = keysOf d ++ keysOf e := by
  simp [keysOf]

theorem keysOf_dictSet {α : Type} (d : List (String × α)) (k : String) (v : α) :
    ∀ s, s ∈ keysOf (dictSet d k v) → s ∈ keysOf d ∨ s = k := by
  intro s hs
  unfold dictSet at hs
  split at hs
  · left
    unfold keysOf at hs ⊢
    rcases List.mem_map.1 hs with ⟨p, hp, hps⟩
    rcases List.mem_map.1 hp with ⟨q, hq, hqp⟩
    refine List.mem_map.2 ⟨q, hq, ?_⟩
    by_cases h : q.1 = k
    · rw [if_pos h] at hqp
      rw [← hqp] at hps
      rw [h, ← hps]
    · rw [if_neg h] at hqp
      rw [hqp, hps]
  · rw [keysOf_append] at hs
    rcases List.mem_append.1 hs with h | h
    · exact Or.inl h
    · right
      simpa [keysOf] using h

theorem keysOf_dictUpdate {α : Type} (e d : List (String × α)) :
    ∀ s, s ∈ keysOf (dictUpdate d e) → s ∈ keysOf d ∨ s ∈ keysOf e := by
  induction e generalizing d with
  | nil => intro s hs; exact Or.inl hs
  | cons p e ih =>
    intro s hs
    unfold dictUpdate at hs
    simp only [List.foldl_cons] at hs
    rcases ih (dictSet d p.1 p.2) s hs with h | h
    · rcases keysOf_dictSet d p.1 p.2 s h with h' | h'
      · exact Or.inl h'
      · exact Or.inr (by simp [keysOf, h'])
    · exact Or.inr (by simp [keysOf]; right; simpa [keysOf] using h)

@[simp]
theorem lookup_cons_pair {α : Type} (k : String) (p : String × α)
    (d : List (String × α)) :
    List.lookup k (p :: d) = if k = p.1 then some p.2 else List.lookup k d := by
  rcases p with ⟨a, b⟩
  by_cases h : k = a
  · simp [List.lookup, h]
  · have hb : (k == a) = false := beq_eq_false_iff_ne.2 h
    simp [List.lookup, hb, h]

theorem dictSet_cons_ne {α : Type} (p : String × α) (d : List (String × α))
    (k : String) (v : α) (hp : ¬p.1 = k) :
    dictSet (p :: d) k v = p :: dictSet d k v := by
  have hk : ¬k = p.1 := fun he => hp he.symm
  unfold dictSet
  by_cases h : (List.lookup k d).isSome <;>
    simp [lookup_cons_pair, hk, h, if_neg hp]

theorem lookup_dictSet_self {α : Type} (d : List (String × α)) (k : String)
    (v : α) :
    (dictSet d k v).lookup k = some v := by
  induction d with
  | nil => simp [dictSet]
  | cons p d ih =>
    by_cases hp : p.1 = k
    · have hs : (List.lookup k (p :: d)).isSome := by
        simp [lookup_cons_pair, hp.symm]
      unfold dictSet
      rw [if_pos hs]
      simp [if_pos hp]
    · rw [dictSet_cons_ne p d k v hp, lookup_cons_pair,
        if_neg (fun he => hp he.symm)]
      exact ih

/-! ## The JSON value domain

`sensorfabric/utils.py` branches on `isinstance(x, dict)` / `isinstance(x,
list)` / scalar.  We model the Python value domain as a mutual inductive
(rather than nesting `List`) so that every recursion below is structural
and reduces in the kernel.  Numbers are modelled as `Int` (the claims under
verification only exercise integral values).  Python `None` and JSON `null`
are the same value in the source and are both modelled by `JSON.null`. -/

mutual

inductive JSON where
  | null : JSON
  | bool : Bool → JSON
  | num : Int → JSON
  | str : String → JSON
  | arr : JArr → JSON
  | obj : JFields → JSON
  deriving DecidableEq

inductive JArr where
  | nil : JArr
  | cons : JSON → JArr → JArr
  deriving DecidableEq

inductive JFields where
  | nil : JFields
  | cons : String → JSON → JFields → JFields
  deriving DecidableEq

end

/-- The elements of a Python list value, as a Lean list. -/
def JArr.toList : JArr → List JSON
  | .nil => []
  | .cons v rest => v :: rest.toList

/-- Build a `JArr` from a Lean list (used to write concrete inputs). -/
def jarr : List JSON → JArr
  | [] => .nil
  | v :: rest => .cons v (jarr rest)

/-- The bindings of a Python dict value, as an association list. -/
def JFields.toList : JFields → List (String × JSON)
  | .nil => []
  | .cons k v rest => (k, v) :: rest.toList

/-- Build a `JFields` from a Lean association list. -/
def jobj : List (String × JSON) → JFields
  | [] => .nil
  | (k, v) :: rest => .cons k v (jobj rest)

/-- `item.get(key)` on a dict element: the value of the first matching key,
or Python `None` (= `JSON.null`) when the key is absent. -/
def JFields.get : JFields → String → JSON
  | .nil, _ => .null
  | .cons k v rest, key => if k = key then v else rest.get key

/-- The keys of a dict value, in insertion order. -/
def JFields.keyList : JFields → List String
  | .nil => []
  | .cons k _ rest => k :: rest.keyList

/-- `isinstance(item, dict)` for a JSON value. -/
def JSON.isObj : JSON → Bool
  | .obj _ => true
  | _ => false

/-- `all(isinstance(item, dict) for item in obj)`. -/
def JArr.allObj : JArr → Bool
  | .nil => true
  | .cons v rest => v.isObj && rest.allObj

/-- `item.keys()` of a JSON value known to be a dict (`[]` otherwise;
unreachable where used, since the all-dicts check guards it). -/
def JSON.objFields : JSON → JFields
  | .obj fs => fs
  | _ => .nil

/-! ## The flattener (`flatten_json_to_columns`, utils.py lines 133-225)

`_flatten_recursive` builds a dict from column name to list of values.  A
flattened record is modelled as an insertion-ordered association list from
column name to `List JSON`. -/

/-- A column-oriented record: dict from column name to list of values. -/
abbrev FlatRec := List (String × List JSON)

/-- `f"{prefix}{separator}{key}" if prefix else key` (utils.py lines 181,
194). -/
def joinKey (sep p k : String) : String :=
  if p = "" then k else p ++ sep ++ k

/-- Accumulate the union of all member keys of a list of dicts, in first
occurrence order (`all_keys.update(item.keys())`, utils.py lines 189-191;
CPython iterates a `set`, whose order is unspecified — any fixed order is a
faithful model and the claims below do not depend on it). -/
def insertNew (acc : List String) (k : String) : List String :=
  if k ∈ acc then acc else acc ++ [k]

/-- The union of the key sets of the (dict) elements of an array. -/
def unionKeys (es : JArr) : List String :=
  go es []
where
  go : JArr → List String → List String
    | .nil, acc => acc
    | .cons v rest, acc => go rest (v.objFields.keyList.foldl insertNew acc)

/-- One column of the list-of-dicts branch: `[item.get(key) for item in
obj]` (utils.py lines 195-197). -/
def colOf (es : JArr) (k : String) : List JSON :=
  es.toList.map (fun it => it.objFields.get k)

mutual

/-- `_flatten_recursive(obj, prefix)` (utils.py lines 175-206). -/
def flattenRecursive (sep : String) : JSON → String → FlatRec
  | .obj fs, p => flattenFields sep fs p []
  | .arr es, p =>
    match es with
    | .nil => [(p, [])]
    | es =>
      if es.allObj then
        (unionKeys es).map (fun k => (joinKey sep p k, colOf es k))
      else
        [(p, es.toList)]
  | v, p => [(p, [v])]

/-- The dict branch of `_flatten_recursive`: `flattened = {}` followed by
`flattened.update(_flatten_recursive(value, new_key))` for each binding
(utils.py lines 179-182), with the running dict as accumulator. -/
def flattenFields (sep : String) : JFields → String → FlatRec → FlatRec
  | .nil, _, acc => acc
  | .cons k v rest, p, acc =>
      flattenFields sep rest p
        (dictUpdate acc (flattenRecursive sep v (joinKey sep p k)))

end

/-- Python list repetition `values * max_length`. -/
def pyListMul {α : Type} (l : List α) (n : Nat) : List α :=
  (List.replicate n l).flatten

/-- The `max_length` scan of `flatten_json_to_columns` (utils.py lines
211-215): the greatest column length observed, starting from 1. -/
def maxLenOf (fr : FlatRec) : Nat :=
  fr.foldl (fun m kv => max m kv.2.length) 1

/-- `flatten_json_to_columns(json_data, fill, separator)` (utils.py lines
133-225).  The second pass replicates a column exactly when `fill` is set,
the column has length exactly 1 and `max_length > 1`. -/
def flatten_json_to_columns (j : JSON) (fill : Bool) (sep : String) : FlatRec :=
  let flattened := flattenRecursive sep j ""
  let maxLength := if fill then maxLenOf flattened else 1
  flattened.map (fun kv =>
    (kv.1,
     if fill && kv.2.length == 1 && decide (1 < maxLength) then
       pyListMul kv.2 maxLength
     else kv.2))

/-! ## The timestamp annotator (`convert_dict_timestamps`, utils.py 228-355)

`_convert_unix_to_iso8601` calls `datetime.fromtimestamp(unix_timestamp)`
with no `tz` argument, which yields the civil time of the instant in the
HOST machine's local time zone, and then formats it with a literal `Z`
suffix.  The host zone therefore enters the computation; we model it as a
fixed offset in seconds east of UTC (a fixed-offset host zone such as
UTC or America/Phoenix is an instance of the real behaviour, which is all
the claims need).  The `target_timezone` branch converts the same instant
through a named IANA zone via `pytz`; that zone database is external, so it
is a parameter `tzFormat` of the environment (no claim evaluates it). -/

/-- The ambient Python runtime environment of `utils.py`: the host time
zone offset used by `datetime.fromtimestamp`, and the `pytz` zone-aware
conversion `dt.astimezone(pytz.timezone(z)).isoformat()` (which depends
only on the zone name and the instant, not on the host zone). -/
structure PyEnv where
  hostOffset : Int
  tzFormat : String → Int → String

/-- Civil date from days since the Unix epoch (proleptic Gregorian), the
standard era-based algorithm; mirrors what `datetime.fromtimestamp`
computes for the date part. -/
def civilFromDays (z : Int) : Int × Int × Int :=
  let zday := z + 719468
  let era := zday.ediv 146097
  let doe := zday - era * 146097
  let yoe := (doe - doe.ediv 1460 + doe.ediv 36524 - doe.ediv 146096).ediv 365
  let y := yoe + era * 400
  let doy := doe - (365 * yoe + yoe.ediv 4 - yoe.ediv 100)
  let mp := (5 * doy + 2).ediv 153
  let d := doy - (153 * mp + 2).ediv 5 + 1
  let m := mp + (if mp < 10 then 3 else (-9 : Int))
  (y + (if m ≤ 2 then 1 else 0), m, d)

/-- Zero-pad a (nonnegative) value to two digits. -/
def pad2 (n : Int) : String :=
  let s := toString n.toNat
  if s.length < 2 then "0" ++ s else s

/-- Zero-pad a year to four digits (`strftime('%Y')`; the claims only
exercise four-digit years). -/
def pad4 (n : Int) : String :=
  let s := toString n.toNat
  if s.length < 4 then String.mk (List.replicate (4 - s.length) '0') ++ s else s

/-- `_convert_unix_to_iso8601(unix_timestamp, target_timezone)` (utils.py
lines 277-293).  `datetime.fromtimestamp(ts)` produces the HOST-local naive
civil time of the instant; with no target zone the result is that local
civil time formatted as `%Y-%m-%dT%H:%M:%SZ` (literal `Z`).  With a target
zone, `astimezone` reinterprets the naive local time as local, recovering
the instant, and formats it in the target zone — that path is
host-independent and delegated to `env.tzFormat`.  `fromtimestamp` raises
for instants whose local year falls outside 1..9999 and the `except`
clause then returns `str(unix_timestamp)`. -/
def convert_unix_to_iso8601 (env : PyEnv) (ts : Int)
    (target : Option String) : String :=
  let localSecs := ts + env.hostOffset
  let days := localSecs.ediv 86400
  let sod := localSecs.emod 86400
  let ymd := civilFromDays days
  if ymd.1 < 1 || 9999 < ymd.1 then
    toString ts
  else
    match target with
    | some z => env.tzFormat z ts
    | none =>
      pad4 ymd.1 ++ "-" ++ pad2 ymd.2.1 ++ "-" ++ pad2 ymd.2.2 ++ "T" ++
        pad2 (sod.ediv 3600) ++ ":" ++ pad2 ((sod.emod 3600).ediv 60) ++
        ":" ++ pad2 (sod.emod 60) ++ "Z"

/-- Python `str.lower()` (character-wise; the keys in play are ASCII). -/
def pyLower (s : String) : String :=
  ⟨s.data.map Char.toLower⟩

/-- `_is_timestamp_key(key)` (utils.py lines 272-275): substring
containment of `"timestamp"`, `"_start"` or `"_end"` in the lowered key. -/
def is_timestamp_key (k : String) : Bool :=
  let kl := (pyLower k).data
  decide ("timestamp".data <:+: kl) || decide ("_start".data <:+: kl) ||
    decide ("_end".data <:+: kl)

/-- Elementwise conversion inside a list-valued timestamp field
(utils.py line 300): numeric elements (Python `bool` is an `int`!) are
converted, all others pass through. -/
def convertElems (env : PyEnv) (target : Option String) : JArr → JArr
  | .nil => .nil
  | .cons (.num n) rest =>
      .cons (.str (convert_unix_to_iso8601 env n target))
        (convertElems env target rest)
  | .cons (.bool b) rest =>
      .cons (.str (convert_unix_to_iso8601 env (if b then 1 else 0) target))
        (convertElems env target rest)
  | .cons v rest => .cons v (convertElems env target rest)

/-- `_process_timestamp_value(value, target_timezone)` (utils.py lines
295-302). -/
def processTimestampValue (env : PyEnv) (target : Option String) :
    JSON → JSON
  | .num n => .str (convert_unix_to_iso8601 env n target)
  | .bool b => .str (convert_unix_to_iso8601 env (if b then 1 else 0) target)
  | .arr es => .arr (convertElems env target es)
  | v => v

/-- First-match lookup on dict fields (`result[k]`). -/
def JFields.lookup : JFields → String → Option JSON
  | .nil, _ => none
  | .cons k v rest, key => if k = key then some v else rest.lookup key

/-- Dict assignment `result[k] = v`: overwrite in place, or append. -/
def JFields.set : JFields → String → JSON → JFields
  | .nil, k, v => .cons k v .nil
  | .cons k' v' rest, k, v =>
      if k' = k then .cons k v rest else .cons k' v' (rest.set k v)

/-- The keys of a dict that match the timestamp heuristic, in insertion
order (`timestamp_keys`, utils.py lines 307-320). -/
def tsKeysOf (fs : JFields) : List String :=
  fs.keyList.filter (fun k => is_timestamp_key k)

/-- The second pass of `_process_dict` (utils.py lines 322-333): for each
tracked timestamp key, read the (already recursively processed) value and
assign the `<key>_iso8601` — and, when a zone was supplied, the
`<key>_iso8601_tz` — siblings. -/
def secondPass (env : PyEnv) (tz : Option String) (tks : List String)
    (fs : JFields) : JFields :=
  tks.foldl (fun res k =>
    let value := (res.lookup k).getD .null
    let res1 := res.set (k ++ "_iso8601") (processTimestampValue env none value)
    match tz with
    | some z =>
        res1.set (k ++ "_iso8601_tz") (processTimestampValue env (some z) value)
    | none => res1) fs

mutual

/-- The recursive dispatch shared by `_process_dict` / `_process_list`
(utils.py lines 310-316 and 340-346): dicts are processed by
`_process_dict`, lists by `_process_list`, everything else passes
through. -/
def processItem (env : PyEnv) (tz : Option String) : JSON → JSON
  | .obj fs => .obj (secondPass env tz (tsKeysOf fs) (processFields env tz fs))
  | .arr es => .arr (processElemsRec env tz es)
  | v => v

/-- The first pass of `_process_dict` (utils.py lines 309-316). -/
def processFields (env : PyEnv) (tz : Option String) : JFields → JFields
  | .nil => .nil
  | .cons k v rest =>
      .cons k (processItem env tz v) (processFields env tz rest)

/-- `_process_list` (utils.py lines 337-347). -/
def processElemsRec (env : PyEnv) (tz : Option String) : JArr → JArr
  | .nil => .nil
  | .cons v rest => .cons (processItem env tz v) (processElemsRec env tz rest)

end

/-- `convert_dict_timestamps(data, timezone)` (utils.py lines 228-355,
main dispatch at lines 349-355). -/
def convert_dict_timestamps (env : PyEnv) (data : JSON)
    (tz : Option String) : JSON :=
  match data with
  | .obj fs => .obj (secondPass env tz (tsKeysOf fs) (processFields env tz fs))
  | .arr es => .arr (processElemsRec env tz es)
  | v => v

/-! ## MD5 (`hashlib.md5`, used by `_cacheFileName`, athena.py 307-311)

A direct `Nat` implementation of RFC 1321; 32-bit words are `Nat` values
reduced modulo `2 ^ 32`.  The message is the UTF-8 encoding of the query
string, exactly as `queryString.encode()` produces it. -/

/-- 32-bit left rotation on a `Nat` already reduced modulo `2 ^ 32`. -/
def rotl32 (x n : Nat) : Nat :=
  ((x <<< n) ||| (x >>> (32 - n))) % 4294967296

/-- The 64 MD5 sine-table constants. -/
def md5K : List Nat :=
  [0xd76aa478, 0xe8c7b756, 0x242070db, 0xc1bdceee,
   0xf57c0faf, 0x4787c62a, 0xa8304613, 0xfd469501,
   0x698098d8, 0x8b44f7af, 0xffff5bb1, 0x895cd7be,
   0x6b901122, 0xfd987193, 0xa679438e, 0x49b40821,
   0xf61e2562, 0xc040b340, 0x265e5a51, 0xe9b6c7aa,
   0xd62f105d, 0x02441453, 0xd8a1e681, 0xe7d3fbc8,
   0x21e1cde6, 0xc33707d6, 0xf4d50d87, 0x455a14ed,
   0xa9e3e905, 0xfcefa3f8, 0x676f02d9, 0x8d2a4c8a,
   0xfffa3942, 0x8771f681, 0x6d9d6122, 0xfde5380c,
   0xa4beea44, 0x4bdecfa9, 0xf6bb4b60, 0xbebfbc70,
   0x289b7ec6, 0xeaa127fa, 0xd4ef3085, 0x04881d05,
   0xd9d4d039, 0xe6db99e5, 0x1fa27cf8, 0xc4ac5665,
   0xf4292244, 0x432aff97, 0xab9423a7, 0xfc93a039,
   0x655b59c3, 0x8f0ccc92, 0xffeff47d, 0x85845dd1,
   0x6fa87e4f, 0xfe2ce6e0, 0xa3014314, 0x4e0811a1,
   0xf7537e82, 0xbd3af235, 0x2ad7d2bb, 0xeb86d391]

/-- The 64 MD5 per-round rotation amounts. -/
def md5S : List Nat :=
  [7, 12, 17, 22, 7, 12, 17, 22, 7, 12, 17, 22, 7, 12, 17, 22,
   5, 9, 14, 20, 5, 9, 14, 20, 5, 9, 14, 20, 5, 9, 14, 20,
   4, 11, 16, 23, 4, 11, 16, 23, 4, 11, 16, 23, 4, 11, 16, 23,
   6, 10, 15, 21, 6, 10, 15, 21, 6, 10, 15, 21, 6, 10, 15, 21]

/-- One MD5 round: state `(a, b, c, d)`, round index `i`, message words
`m`. -/
def md5Round (m : List Nat) (st : Nat × Nat × Nat × Nat) (i : Nat) :
    Nat × Nat × Nat × Nat :=
  let a := st.1
  let b := st.2.1
  let c := st.2.2.1
  let d := st.2.2.2
  let mask := 4294967295
  let fg : Nat × Nat :=
    if i < 16 then ((b &&& c) ||| ((b ^^^ mask) &&& d), i)
    else if i < 32 then ((d &&& b) ||| ((d ^^^ mask) &&& c), (5 * i + 1) % 16)
    else if i < 48 then (b ^^^ c ^^^ d, (3 * i + 5) % 16)
    else (c ^^^ (b ||| (d ^^^ mask)), (7 * i) % 16)
  let f := (fg.1 + a + md5K.getD i 0 + m.getD fg.2 0) % 4294967296
  (d, (b + rotl32 f (md5S.getD i 0)) % 4294967296, b, c)

/-- Decode a 64-byte chunk into sixteen little-endian 32-bit words. -/
def md5Words (chunk : List Nat) : List Nat :=
  (List.range 16).map (fun j =>
    chunk.getD (4 * j) 0 + chunk.getD (4 * j + 1) 0 * 256 +
      chunk.getD (4 * j + 2) 0 * 65536 + chunk.getD (4 * j + 3) 0 * 16777216)

/-- Process one 64-byte chunk into the running digest state. -/
def md5Chunk (h : Nat × Nat × Nat × Nat) (chunk : List Nat) :
    Nat × Nat × Nat × Nat :=
  let m := md5Words chunk
  let st := (List.range 64).foldl (md5Round m) h
  ((h.1 + st.1) % 4294967296, (h.2.1 + st.2.1) % 4294967296,
   (h.2.2.1 + st.2.2.1) % 4294967296, (h.2.2.2 + st.2.2.2) % 4294967296)

/-- Split a byte list into 64-byte chunks (the padded length is always a
multiple of 64).  Fuelled structural recursion so that it reduces in the
kernel; one unit of fuel per (at least one) consumed byte, so the byte
count is always enough fuel. -/
def chunks64Go : Nat → List Nat → List (List Nat)
  | 0, _ => []
  | _ + 1, [] => []
  | fuel + 1, bs => bs.take 64 :: chunks64Go fuel (bs.drop 64)

/-- Split a byte list into 64-byte chunks. -/
def chunks64 (bs : List Nat) : List (List Nat) :=
  chunks64Go bs.length bs

/-- MD5 padding: append `0x80`, zero-fill to 56 mod 64, then the original
bit length as a 64-bit little-endian value. -/
def md5Pad (msg : List Nat) : List Nat :=
  let bitLen := msg.length * 8
  let padded := msg ++ [0x80] ++
    List.replicate ((119 - msg.length % 64) % 64) 0
  padded ++ (List.range 8).map (fun j => bitLen / (256 ^ j) % 256)

/-- A 32-bit word as eight lowercase hex digits, little-endian byte
order (`Nat.digitChar` is exactly the lowercase hex digit for values
below 16). -/
def md5WordHex (w : Nat) : String :=
  String.mk ((List.range 4).flatMap (fun j =>
    let byte := w / (256 ^ j) % 256
    [Nat.digitChar (byte / 16), Nat.digitChar (byte % 16)]))

/-- `hashlib.md5(bytes).hexdigest()`. -/
def md5hex (msg : List Nat) : String :=
  let st := (chunks64 (md5Pad msg)).foldl md5Chunk
    (0x67452301, 0xefcdab89, 0x98badcfe, 0x10325476)
  md5WordHex st.1 ++ md5WordHex st.2.1 ++ md5WordHex st.2.2.1 ++
    md5WordHex st.2.2.2

/-- The UTF-8 encoding of one character, as bytes. -/
def utf8Bytes (c : Char) : List Nat :=
  let n := c.toNat
  if n < 128 then [n]
  else if n < 2048 then [192 + n / 64, 128 + n % 64]
  else if n < 65536 then
    [224 + n / 4096, 128 + n / 64 % 64, 128 + n % 64]
  else
    [240 + n / 262144, 128 + n / 4096 % 64, 128 + n / 64 % 64, 128 + n % 64]

/-- The UTF-8 bytes of a string (`queryString.encode()`). -/
def strBytes (s : String) : List Nat :=
  s.data.flatMap utf8Bytes

/-- `_cacheFileName(queryString)` (athena.py lines 307-311): the MD5 hex
digest of the exact query text, with no normalization. -/
def cacheFileName (queryString : String) : String :=
  md5hex (strBytes queryString)

set_option maxRecDepth 4000

/-! ## The query client (`athena.py`)

`get_query_results` returns rows under `ResultSet.Rows`; each row is a list
of cells, each cell a singleton dict `\x7b'VarCharValue': value\x7d` or the empty
dict (no data).  A cell is modelled as `Option String`; a raw service
response as the row list plus the optional `NextToken`.  A pandas
`DataFrame` built from a dict of equally ordered columns is modelled as an
insertion-ordered association list from column name to cell list.  The
remote service (boto3 Athena client) is a parameter: the execution id
returned by `start_query_execution` (or its failure), the terminal state
the busy poll loop eventually observes, and the sequence of responses the
successive `get_query_results` calls of this execution receive. -/

/-- One Athena result cell: `\x7b'VarCharValue': v\x7d` or `\x7b\x7d`. -/
abbrev Cell := Option String

/-- One raw `get_query_results` response. -/
structure Response where
  rows : List (List Cell)
  nextToken : Option String
  deriving DecidableEq

/-- A pandas `DataFrame` built from a dict of columns. -/
abbrev Table := List (String × List Cell)

/-- `queryResults` either falls into the bare `return pandas.DataFrame()`
(athena.py line 154) — a single value — or reaches the normal
`return (frame, nextToken)` (line 198) — a pair.  The caller in
`execQuery` unpacks two values, which raises on the bare shape. -/
inductive QRResult where
  | bare : Table → QRResult
  | pair : Table → Option String → QRResult
  deriving DecidableEq

/-- Extract the header names from the first row (athena.py lines 169-173):
`k = list(c.keys())[0]; columnNames += [c[k]]`; an empty header cell makes
`list(c.keys())[0]` raise `IndexError`. -/
def headerNames : List Cell → Except String (List String)
  | [] => .ok []
  | some v :: rest => (headerNames rest).map (fun ns => v :: ns)
  | none :: _ => .error "IndexError: list index out of range"

/-- Append one data row into the column map (athena.py lines 178-188):
cell `idx` goes to column `columnNames[idx]` (raising `IndexError` when the
row is longer than the column list); an empty cell appends `None`. -/
def appendRow (cols : List String) (m : Table) (row : List Cell) :
    Except String Table :=
  go m row 0
where
  go (m : Table) : List Cell → Nat → Except String Table
    | [], _ => .ok m
    | c :: rest, idx =>
      match cols.get? idx with
      | none => .error "IndexError: list index out of range"
      | some name =>
        go (dictSet m name (((m.lookup name).getD []) ++ [c])) rest (idx + 1)

/-- Fold all data rows into the column map. -/
def appendRows (cols : List String) : Table → List (List Cell) →
    Except String Table
  | m, [] => .ok m
  | m, row :: rest =>
    match appendRow cols m row with
    | .error e => .error e
    | .ok m1 => appendRows cols m1 rest

/-- `queryResults(executionId, nextToken, columnNames)` (athena.py lines
137-198).  The `executionId`/`nextToken` arguments only select which
remote call is made; the response they produce is passed directly.  The
`columnNames` parameter models the Python list OBJECT the call received —
the default being one shared mutable list — and the returned list is that
object's state after the call (the body mutates it in place with
`columnNames += [c[k]]`). -/
def queryResults (resp : Response) (columnNames : List String) :
    Except String (QRResult × List String) :=
  if resp.rows.length ≤ 0 then
    .ok (.bare [], columnNames)
  else
    match
      if columnNames.length ≤ 0 then
        match headerNames (resp.rows.headD []) with
        | .error e => Except.error e
        | .ok ns => Except.ok (columnNames ++ ns, 1)
      else Except.ok (columnNames, 0)
    with
    | .error e => .error e
    | .ok (cols, dataStart) =>
      let map0 : Table := cols.foldl (fun m c => dictSet m c []) []
      match appendRows cols map0 (resp.rows.drop dataStart) with
      | .error e => .error e
      | .ok frame => .ok (.pair frame resp.nextToken, cols)

/-- The column labels of a frame (`frame.columns`). -/
def tableColumns (t : Table) : List String :=
  t.map Prod.fst

/-- `pandas.concat([frame, framepage])` for two frames with the same
column labels in the same order (the only case reached: continuation pages
are built from `columnNames=frame.columns`): stack rows column-wise. -/
def concatTables (a b : Table) : Table :=
  a.map (fun kv => (kv.1, kv.2 ++ ((b.lookup kv.1).getD [])))

/-- The remote side of one `execQuery` run: what `start_query_execution`
returns (or raises), the terminal state the polling loop eventually
observes via `get_query_execution`, and the successive
`get_query_results` responses. -/
structure Service where
  startQuery : Except String String
  finalState : String
  responses : List Response

/-- Replace the terminal state a service reports. -/
def withFinalState (svc : Service) (s : String) : Service :=
  ⟨svc.startQuery, s, svc.responses⟩

/-- The pagination loop of `execQuery` (athena.py lines 289-294): while a
continuation token is present, fetch the next page with
`columnNames=frame.columns` and concatenate.  Each iteration consumes the
next service response; a missing response is a service failure.  A bare
(zero-row) return from `queryResults` raises at the tuple unpacking
`framepage, nextToken = ...`. -/
def pageLoop (frame : Table) : Option String → List Response →
    Except String Table
  | none, _ => .ok frame
  | some _, [] => .error "service: no response to get_query_results"
  | some _, r :: rest =>
    match queryResults r (tableColumns frame) with
    | .error e => .error e
    | .ok (.bare _, _) => .error "TypeError: cannot unpack DataFrame"
    | .ok (.pair fp tok, _) => pageLoop (concatTables frame fp) tok rest

/-- The submit → poll → fetch-all-pages pipeline of `execQuery` (athena.py
lines 236-294), i.e. everything between the cache check and the cache
write.  After the busy loop observes a terminal state, the source reads

    if state == 'FAILED':
        # Return query failed execution.
        pass
    if state == 'CANCELLED':
        # Return query cancelled execution.
        pass

— both branches do nothing, so control falls through to the result fetch
regardless of the terminal state (the `s3Transfer=False` default path;
the s3 bulk-download branch, lines 259-281, is not modelled and no claim
touches it). -/
def runFetch (svc : Service) : Except String Table :=
  match svc.startQuery with
  | .error e => .error e
  | .ok _executionId =>
    let state := svc.finalState
    let _failedBranch := if state = "FAILED" then () else ()
    let _cancelledBranch := if state = "CANCELLED" then () else ()
    match svc.responses with
    | [] => .error "service: no response to get_query_results"
    | r :: rest =>
      match queryResults r [] with
      | .error e => .error e
      | .ok (.bare _, _) => .error "TypeError: cannot unpack DataFrame"
      | .ok (.pair frame tok, _) => pageLoop frame tok rest

/-- The on-disk `.cache` directory: file name (the MD5 hex digest plus the
fixed extension, which we omit) to stored frame.  Reading a cache file back
is modelled as returning the stored frame. -/
abbrev Cache := List (String × Table)

/-- `execQuery(queryString, queryParams, cached, defaultTimeout,
s3Transfer=False)` (athena.py lines 223-301): serve from the cache when
`offlineCache` (constructor flag) and `cached` are both set and the file
exists; otherwise run the query, and persist the final frame keyed by
`_cacheFileName(queryString)` whenever `offlineCache` is set.  Returns the
frame together with the cache directory state after the call. -/
def execQuery (offlineCache cached : Bool) (queryString : String)
    (svc : Service) (cache : Cache) : Except String (Table × Cache) :=
  match offlineCache && cached, cache.lookup (cacheFileName queryString) with
  | true, some frame => .ok (frame, cache)
  | _, _ =>
    match runFetch svc with
    | .error e => .error e
    | .ok frame =>
      if offlineCache then
        .ok (frame, dictSet cache (cacheFileName queryString) frame)
      else
        .ok (frame, cache)

/-! ## Fixtures -/

/-- A host whose local zone is UTC. -/
def envUTC : PyEnv := ⟨0, fun _ _ => ""⟩

/-- A host whose local zone is UTC-07:00 (e.g. America/Phoenix, no DST). -/
def envPhx : PyEnv := ⟨-25200, fun _ _ => ""⟩

/-- The spec's canonical annotation input: the dict with a single key
`"timestamp"` holding the list `[0]`. -/
def tsInput : JSON := .obj (jobj [("timestamp", .arr (jarr [.num 0]))])

/-- A service whose execution reaches the terminal state `FAILED` while
`get_query_results` still serves one single-column page. -/
def svcFailed : Service :=
  ⟨.ok "eid", "FAILED", [⟨[[some "c"], [some "1"]], none⟩]⟩

/-- A healthy service: `SUCCEEDED`, one single-column page. -/
def svcGood : Service :=
  ⟨.ok "eid", "SUCCEEDED", [⟨[[some "c"], [some "1"]], none⟩]⟩

/-- A broken service: submission itself raises. -/
def svcBroken : Service := ⟨.error "ServiceUnavailable", "FAILED", []⟩

/-- The table produced by `svcGood` / `svcFailed`. -/
def tableC : Table := [("c", [some "1"])]

/-- A response whose header row names one column `a` and which carries one
data row. -/
def respHdr : Response := ⟨[[some "a"], [some "1"]], none⟩

/-! ## C1 — timestamp annotation is HOST-local civil time, not UTC -/

/-- Claim C1 (code bug exhibit): `convert_dict_timestamps` formats
`datetime.fromtimestamp(ts)` — the HOST-local civil time — with a literal
`Z` suffix.  On a UTC host the promised `1970-01-01T00:00:00Z` appears,
but on a UTC-07:00 host the same input yields `1969-12-31T17:00:00Z`: the
output is not the UTC civil time and depends on the host zone, contrary to
the claim (and to the function's own docstring). -/
theorem claim_C1_local_time_not_utc :
    convert_dict_timestamps envUTC tsInput none =
      .obj (jobj [("timestamp", .arr (jarr [.num 0])),
        ("timestamp_iso8601", .arr (jarr [.str "1970-01-01T00:00:00Z"]))]) ∧
    convert_dict_timestamps envPhx tsInput none =
      .obj (jobj [("timestamp", .arr (jarr [.num 0])),
        ("timestamp_iso8601", .arr (jarr [.str "1969-12-31T17:00:00Z"]))]) ∧
    ("1969-12-31T17:00:00Z" : String) ≠ "1970-01-01T00:00:00Z" :=
  ⟨rfl, rfl, by decide⟩

/-! ## C2 — FAILED is observed but never raised -/

/-- Claim C2 (code bug exhibit): after the poll loop, the `FAILED` and
`CANCELLED` branches of `execQuery` are literal `pass` statements, so the
observed terminal state has no effect whatsoever on the result — replacing
it by any other state gives the definitionally same outcome — and an
execution that reaches `FAILED` still falls through to the result fetch
and returns a table instead of raising a `QueryFailed` error (no such
error kind exists anywhere in the code). -/
theorem claim_C2_failed_not_raised :
    (∀ (oc c : Bool) (q : String) (svc : Service) (cache : Cache)
      (s : String),
      execQuery oc c q (withFinalState svc s) cache =
        execQuery oc c q svc cache) ∧
    execQuery false false "SELECT 1" svcFailed [] = .ok (tableC, []) :=
  ⟨fun _ _ _ _ _ _ => rfl, rfl⟩

/-! ## C5 — the cache is written even after a FAILED execution -/

/-- Claim C5 (code bug exhibit): because the `FAILED` branch is a `pass`,
an execution that terminates in `FAILED` still reaches the cache write at
the end of `execQuery` whenever the result fetch succeeds: starting from
an empty cache directory, the run stores an entry for the query text. -/
theorem claim_C5_cache_written_after_failed :
    execQuery true false "SELECT 1" svcFailed [] =
      .ok (tableC, [(cacheFileName "SELECT 1", tableC)]) ∧
    (([] : Cache).lookup (cacheFileName "SELECT 1") = none) :=
  ⟨rfl, rfl⟩

/-! ## C8 — the zero-row return has a different shape -/

/-- Claim C8 (code bug exhibit): on a response with zero rows,
`queryResults` executes `return pandas.DataFrame()` — a single bare value —
while every other return is the pair `(frame, nextToken)`; the two shapes
are distinct, so the caller's unpacking `frame, nextToken = ...` raises in
the zero-row case. -/
theorem claim_C8_zero_rows_bare_shape :
    queryResults ⟨[], some "tok"⟩ [] = .ok (.bare [], []) ∧
    queryResults respHdr [] = .ok (.pair [("a", [some "1"])] none, ["a"]) ∧
    ∀ (t : Table) (tok : Option String) (cols : List String),
      (Except.ok (QRResult.bare [], ([] : List String)) :
        Except String (QRResult × List String)) ≠ .ok (.pair t tok, cols) :=
  ⟨rfl, rfl, fun t tok cols h => by simp at h⟩

/-! ## C6 — re-annotation is NOT idempotent -/

/-- Claim C6 (counterexample): annotating `tsInput` twice is different
from annotating it once — the key `timestamp_iso8601` synthesized by the
first pass still contains the substring `timestamp`, matches the
heuristic again, and the second pass adds `timestamp_iso8601_iso8601`. -/
theorem claim_C6_counterexample :
    convert_dict_timestamps envUTC
        (convert_dict_timestamps envUTC tsInput none) none ≠
      convert_dict_timestamps envUTC tsInput none := by
  decide

/-- Claim C6 (amended): the synthesized key names DO match the timestamp
heuristic again: appending `_iso8601` preserves every substring match, so
`_is_timestamp_key` holds of `<key>_iso8601` whenever it held of `key` —
which is why a second application of `convert_dict_timestamps` adds
`<key>_iso8601_iso8601` siblings instead of being idempotent. -/
theorem claim_C6_heuristic_rematches (k : String)
    (h : is_timestamp_key k = true) :
    is_timestamp_key (k ++ "_iso8601") = true := by
  have hdata : (pyLower (k ++ "_iso8601")).data =
      (pyLower k).data ++ "_iso8601".data := by
    simp [pyLower, String.data_append]
  simp only [is_timestamp_key, Bool.or_eq_true, decide_eq_true_eq] at h ⊢
  rw [hdata]
  rcases h with (h | h) | h
  · exact Or.inl (Or.inl (h.trans ⟨[], "_iso8601".data, rfl⟩))
  · exact Or.inl (Or.inr (h.trans ⟨[], "_iso8601".data, rfl⟩))
  · exact Or.inr (h.trans ⟨[], "_iso8601".data, rfl⟩)

/-- Claim C6 witness: the heuristic matches `timestamp` and, via the
theorem, also matches `timestamp_iso8601`. -/
theorem claim_C6_witness :
    is_timestamp_key "timestamp" = true ∧
    is_timestamp_key ("timestamp" ++ "_iso8601") = true :=
  ⟨by decide, claim_C6_heuristic_rematches "timestamp" (by decide)⟩

/-! ## C10 — the shared mutable default argument leaks -/

/-- Claim C10 (counterexample): two successive `queryResults` calls that
omit `columnNames` are NOT deterministic.  The first call (shared default
still `[]`) strips the header row and discovers column `a`, leaving the
shared default equal to `["a"]`; the second call therefore skips header
extraction and parses the header row as data, returning a different
table. -/
theorem claim_C10_counterexample :
    queryResults respHdr [] = .ok (.pair [("a", [some "1"])] none, ["a"]) ∧
    queryResults respHdr ["a"] =
      .ok (.pair [("a", [some "a", some "1"])] none, ["a"]) ∧
    ([("a", [some "1"])] : Table) ≠ [("a", [some "a", some "1"])] :=
  ⟨rfl, rfl, by decide⟩

/-- Claim C10 (amended): column names discovered during one call DO leak
into a later call.  `columnNames += [c[k]]` mutates the list object the
call received — for calls omitting the argument, the one shared default
list — so after any call that started from the empty shared list and
extracted header names, the shared list equals exactly those names, and a
subsequent call omitting `columnNames` starts from them (skipping header
extraction, as the counterexample shows). -/
theorem claim_C10_default_arg_leak (resp : Response) (hdr : List Cell)
    (rest : List (List Cell)) (names : List String) (r : QRResult)
    (cols : List String)
    (hrows : resp.rows = hdr :: rest)
    (hhdr : headerNames hdr = .ok names)
    (hcall : queryResults resp [] = .ok (r, cols)) :
    cols = names := by
  unfold queryResults at hcall
  rw [hrows] at hcall
  simp only [List.length_cons, List.headD_cons, List.drop_succ_cons,
    List.length_nil, Nat.le_zero, List.nil_append, hhdr] at hcall
  split at hcall
  · rename_i hlen
    omega
  · split at hcall
    · rename_i heq2
      simp at heq2
    · rename_i cols2 dataStart2 heq2
      simp only [if_true] at heq2
      injection heq2 with h3
      have hc : cols2 = names := (congrArg Prod.fst h3).symm
      subst hc
      split at hcall
      · simp at hcall
      · injection hcall with h1
        exact (congrArg Prod.snd h1).symm

/-- Claim C10 witness: applying the leak theorem at the concrete
response. -/
theorem claim_C10_witness : (["a"] : List String) = ["a"] :=
  claim_C10_default_arg_leak respHdr [some "a"] [[some "1"]] ["a"]
    (.pair [("a", [some "1"])] none) ["a"] rfl rfl rfl

/-! ## C4 — cache round-trip -/

/-- Claim C4: with offline caching enabled and `cached=True`, whatever a
first `execQuery` call returned, a second call for the same query text
against ANY service (in particular one that fails) returns the same table
from the cache without consulting the service, because either the first
call was itself a cache hit (leaving the cache unchanged) or it stored its
frame under `_cacheFileName(queryString)` — the MD5 of the exact query
text — on success. -/
theorem claim_C4_cache_roundtrip (q : String) (svc1 : Service)
    (cache0 cache1 : Cache) (t : Table)
    (h : execQuery true true q svc1 cache0 = .ok (t, cache1)) :
    ∀ svc2 : Service, execQuery true true q svc2 cache1 = .ok (t, cache1) := by
  intro svc2
  have hlook : cache1.lookup (cacheFileName q) = some t := by
    unfold execQuery at h
    rcases hl : cache0.lookup (cacheFileName q) with _ | frame
    · rw [hl] at h
      rcases hr : runFetch svc1 with e | frame'
      · rw [hr] at h
        exact absurd h (by simp)
      · rw [hr] at h
        simp only [if_true] at h
        injection h with h1
        have hveq : frame' = t := congrArg Prod.fst h1
        have hceq : dictSet cache0 (cacheFileName q) frame' = cache1 :=
          congrArg Prod.snd h1
        rw [← hceq, hveq]
        exact lookup_dictSet_self cache0 (cacheFileName q) t
    · rw [hl] at h
      injection h with h1
      have hveq : frame = t := congrArg Prod.fst h1
      have hceq : cache0 = cache1 := congrArg Prod.snd h1
      rw [← hceq, hl, hveq]
  unfold execQuery
  rw [hlook]
  rfl

/-- Claim C4 witness: a first run against a healthy service fills the
cache; re-running the same query text against a service that cannot even
submit still returns the first call's table, with the cache unchanged. -/
theorem claim_C4_witness :
    execQuery true true "SELECT 1" svcBroken
        [(cacheFileName "SELECT 1", tableC)] =
      .ok (tableC, [(cacheFileName "SELECT 1", tableC)]) :=
  claim_C4_cache_roundtrip "SELECT 1" svcGood []
    [(cacheFileName "SELECT 1", tableC)] tableC rfl svcBroken

/-! ## C3 — fill semantics -/

theorem foldl_max_le_init (L : List Nat) (init : Nat) :
    init ≤ L.foldl max init := by
  induction L generalizing init with
  | nil => exact le_refl _
  | cons x L ih => exact le_trans (le_max_left init x) (ih (max init x))

theorem foldl_max_le_mem (L : List Nat) (init : Nat) :
    ∀ x ∈ L, x ≤ L.foldl max init := by
  induction L generalizing init with
  | nil => intro x hx; cases hx
  | cons y L ih =>
    intro x hx
    rcases List.mem_cons.1 hx with h | h
    · subst h
      exact le_trans (le_max_right init x) (foldl_max_le_init L _)
    · exact ih (max init y) x h

theorem foldl_max_eq_init_or_mem (L : List Nat) (init : Nat) :
    L.foldl max init = init ∨ L.foldl max init ∈ L := by
  induction L generalizing init with
  | nil => exact Or.inl rfl
  | cons y L ih =>
    simp only [List.foldl_cons]
    rcases ih (max init y) with h | h
    · rcases max_cases init y with ⟨he, _⟩ | ⟨he, _⟩
      · exact Or.inl (by rw [h, he])
      · exact Or.inr (by rw [h, he]; exact List.mem_cons_self y L)
    · exact Or.inr (List.mem_cons_of_mem y h)

/-- `maxLenOf` as a fold of `max` over the column lengths. -/
theorem maxLenOf_eq (fr : FlatRec) :
    maxLenOf fr = (fr.map (fun kv => kv.2.length)).foldl max 1 := by
  simp [maxLenOf, List.foldl_map]

/-- Transporting a first-match lookup through a key-preserving map. -/
theorem lookup_map_snd {α β : Type} (fr : List (String × α))
    (g : String → α → β) (k : String) (col : α)
    (h : fr.lookup k = some col) :
    (fr.map (fun kv => (kv.1, g kv.1 kv.2))).lookup k = some (g k col) := by
  induction fr with
  | nil => simp at h
  | cons p fr ih =>
    rw [lookup_cons_pair] at h
    by_cases hk : k = p.1
    · rw [if_pos hk] at h
      injection h with h1
      simp only [List.map_cons, lookup_cons_pair]
      rw [if_pos hk, hk, h1]
    · rw [if_neg hk] at h
      simp only [List.map_cons, lookup_cons_pair]
      rw [if_neg hk]
      exact ih h

/-- `[x] * n` is `n` copies of `x`. -/
theorem pyListMul_singleton {α : Type} (x : α) (n : Nat) :
    pyListMul [x] n = List.replicate n x := by
  induction n with
  | zero => rfl
  | succ n ih =>
    simp only [pyListMul, List.replicate_succ, List.flatten_cons] at ih ⊢
    rw [ih]
    rfl

/-- Claim C3: with `fill=True`, `flatten_json_to_columns` first computes
`max_length` — the greatest column length observed over the flattened
record, at least 1, equal to 1 when the record is empty or all columns are
singletons — and then replicates exactly the columns of length exactly 1
(repeating the single element) to `max_length` when `max_length > 1`,
leaving every column of length 0 or of length greater than 1 untouched;
in particular a record mixing a length-0 column and a longer column is not
normalized to equal lengths. -/
theorem claim_C3_fill_semantics (j : JSON) (sep : String) :
    (1 ≤ maxLenOf (flattenRecursive sep j "") ∧
     (∀ kv ∈ flattenRecursive sep j "",
        kv.2.length ≤ maxLenOf (flattenRecursive sep j "")) ∧
     (maxLenOf (flattenRecursive sep j "") = 1 ∨
       ∃ kv ∈ flattenRecursive sep j "",
         kv.2.length = maxLenOf (flattenRecursive sep j ""))) ∧
    (∀ k col, (flattenRecursive sep j "").lookup k = some col →
      (∀ x, col = [x] → 1 < maxLenOf (flattenRecursive sep j "") →
        (flatten_json_to_columns j true sep).lookup k =
          some (List.replicate (maxLenOf (flattenRecursive sep j "")) x)) ∧
      (col.length ≠ 1 →
        (flatten_json_to_columns j true sep).lookup k = some col) ∧
      (¬ 1 < maxLenOf (flattenRecursive sep j "") →
        (flatten_json_to_columns j true sep).lookup k = some col)) := by
  constructor
  · refine ⟨?_, ?_, ?_⟩
    · rw [maxLenOf_eq]
      exact foldl_max_le_init _ 1
    · intro kv hkv
      rw [maxLenOf_eq]
      exact foldl_max_le_mem _ 1 _ (List.mem_map.2 ⟨kv, hkv, rfl⟩)
    · rw [maxLenOf_eq]
      rcases foldl_max_eq_init_or_mem
          ((flattenRecursive sep j "").map (fun kv => kv.2.length)) 1 with
        h | h
      · exact Or.inl h
      · rcases List.mem_map.1 h with ⟨kv, hkv, he⟩
        exact Or.inr ⟨kv, hkv, he⟩
  · intro k col h
    have hform : flatten_json_to_columns j true sep =
        (flattenRecursive sep j "").map (fun kv =>
          (kv.1,
           if true && (kv.2.length == 1) &&
               decide (1 < maxLenOf (flattenRecursive sep j "")) then
             pyListMul kv.2 (maxLenOf (flattenRecursive sep j ""))
           else kv.2)) := rfl
    refine ⟨?_, ?_, ?_⟩
    · intro x hx hm
      rw [hform]
      have := lookup_map_snd (flattenRecursive sep j "")
        (fun _ c =>
          if true && (c.length == 1) &&
              decide (1 < maxLenOf (flattenRecursive sep j "")) then
            pyListMul c (maxLenOf (flattenRecursive sep j ""))
          else c) k col h
      rw [this, hx]
      simp only [List.length_singleton, beq_self_eq_true, Bool.true_and,
        decide_eq_true hm, Bool.and_true, if_true]
      rw [pyListMul_singleton]
    · intro hlen
      rw [hform]
      have := lookup_map_snd (flattenRecursive sep j "")
        (fun _ c =>
          if true && (c.length == 1) &&
              decide (1 < maxLenOf (flattenRecursive sep j "")) then
            pyListMul c (maxLenOf (flattenRecursive sep j ""))
          else c) k col h
      rw [this]
      have hbeq : (col.length == 1) = false := beq_eq_false_iff_ne.2 hlen
      simp [hbeq]
    · intro hm
      rw [hform]
      have := lookup_map_snd (flattenRecursive sep j "")
        (fun _ c =>
          if true && (c.length == 1) &&
              decide (1 < maxLenOf (flattenRecursive sep j "")) then
            pyListMul c (maxLenOf (flattenRecursive sep j ""))
          else c) k col h
      rw [this]
      simp [decide_eq_false hm]

/-- The spec's broadcast fixture `a = "x"` paired with a two-sample dict
array and an empty array. -/
def fillInput : JSON :=
  .obj (jobj [("a", .str "x"),
    ("b", .arr (jarr [.obj (jobj [("t", .num 1), ("v", .num 10)]),
                      .obj (jobj [("t", .num 2), ("v", .num 20)])])),
    ("c", .arr .nil)])

/-- Claim C3 witness: on `fillInput` the max length is 2; the singleton
column `a` is replicated to two copies while the empty column `c` is left
at length 0 (no rectangularization). -/
theorem claim_C3_witness :
    maxLenOf (flattenRecursive "_" fillInput "") = 2 ∧
    (flatten_json_to_columns fillInput true "_").lookup "a" =
      some (List.replicate 2 (.str "x")) ∧
    (flatten_json_to_columns fillInput true "_").lookup "c" = some [] :=
  ⟨rfl,
   ((claim_C3_fill_semantics fillInput "_").2 "a" [.str "x"] rfl).1
     (.str "x") rfl (by decide),
   (((claim_C3_fill_semantics fillInput "_").2 "c" [] rfl).2.1 (by decide))⟩

/-! ## C7 — array-of-objects flattening is index-aligned -/

/-- First-match lookup through a literal key-transforming map: any member
key, transformed injectively, looks up to its own image. -/
theorem lookup_map_of_mem {α : Type} (L : List String) (f : String → String)
    (g : String → α) (hf : ∀ a b, f a = f b → a = b) (k : String)
    (hk : k ∈ L) :
    (L.map (fun x => (f x, g x))).lookup (f k) = some (g k) := by
  induction L with
  | nil => cases hk
  | cons x L ih =>
    simp only [List.map_cons, lookup_cons_pair]
    by_cases h : f k = f x
    · rw [if_pos h, hf k x h]
    · rw [if_neg h]
      rcases List.mem_cons.1 hk with he | he
      · exact absurd (congrArg f he) h
      · exact ih he

/-- `joinKey sep p` is injective in the key argument. -/
theorem joinKey_inj (sep p : String) (k1 k2 : String)
    (h : joinKey sep p k1 = joinKey sep p k2) : k1 = k2 := by
  unfold joinKey at h
  by_cases hp : p = ""
  · rwa [if_pos hp, if_pos hp] at h
  · rw [if_neg hp, if_neg hp] at h
    have hd := congrArg String.data h
    rw [String.data_append, String.data_append] at hd
    exact String.ext (List.append_cancel_left hd)

/-- Claim C7: flattening an array whose elements are all objects yields,
for every key `k` of the union of the member key sets, the column at
`joinKey sep p k` whose entries are exactly `item.get(k)` for the members
in element order — length equal to the member count, the `i`-th entry
being the `i`-th member's value for `k` (Python `None` = `null` when the
member lacks the key) — so distinct keys' columns stay positionally
aligned to source element order. -/
theorem claim_C7_index_alignment (sep p : String) (es : JArr) (k : String)
    (hobj : es.allObj = true) (hk : k ∈ unionKeys es) :
    ∃ col, (flattenRecursive sep (.arr es) p).lookup (joinKey sep p k) =
        some col ∧
      col.length = es.toList.length ∧
      ∀ i : Nat, col.get? i =
        (es.toList.get? i).map (fun it => it.objFields.get k) := by
  refine ⟨colOf es k, ?_, by simp [colOf], fun i => by simp [colOf]⟩
  cases es with
  | nil =>
    simp [unionKeys, unionKeys.go] at hk
  | cons v rest =>
    show (flattenRecursive sep (.arr (.cons v rest)) p).lookup
        (joinKey sep p k) = some (colOf (.cons v rest) k)
    have hred : flattenRecursive sep (.arr (.cons v rest)) p =
        (unionKeys (.cons v rest)).map
          (fun k0 => (joinKey sep p k0, colOf (.cons v rest) k0)) := by
      rw [flattenRecursive, if_pos hobj]
      simp
    rw [hred]
    exact lookup_map_of_mem (unionKeys (.cons v rest)) (joinKey sep p)
      (colOf (.cons v rest)) (joinKey_inj sep p) k hk

/-- A heterogeneous two-element dict array: the second sample lacks
`"v"`. -/
def hetArr : JArr :=
  jarr [.obj (jobj [("t", .num 1), ("v", .num 10)]),
        .obj (jobj [("t", .num 2)])]

/-- Claim C7 witness: in the heterogeneous array, the `_v` column has
length 2 with `null` at the missing position, aligned with `_t`. -/
theorem claim_C7_witness :
    ∃ col, (flattenRecursive "_" (.arr hetArr) "b").lookup "b_v" =
        some col ∧
      col.length = hetArr.toList.length ∧
      ∀ i : Nat, col.get? i =
        (hetArr.toList.get? i).map (fun it => it.objFields.get "v") :=
  claim_C7_index_alignment "_" "b" hetArr "v" (by decide) (by decide)

/-! ## C9 — child key sets: prefixing and (conditional) disjointness -/

/-- The data of a joined key under a nonempty prefix (default separator):
the prefix, an underscore, then the key. -/
theorem joinKey_data (p k : String) (hp : p ≠ "") :
    (joinKey "_" p k).data = p.data ++ '_' :: k.data := by
  unfold joinKey
  rw [if_neg hp, String.data_append, String.data_append]
  simp

/-- A key joined under a nonempty prefix is nonempty. -/
theorem joinKey_ne_empty (p k : String) (hp : p ≠ "") :
    joinKey "_" p k ≠ "" := by
  intro h
  have hd := congrArg String.data h
  rw [joinKey_data p k hp] at hd
  simp at hd

/-- Cancellation around the first separator: if neither head segment
contains an underscore, equal underscore-joined chains have equal head
segments. -/
theorem sepChainEq : ∀ (a b u v : List Char), '_' ∉ a → '_' ∉ b →
    a ++ '_' :: u = b ++ '_' :: v → a = b := by
  intro a
  induction a with
  | nil =>
    intro b u v _ hb h
    cases b with
    | nil => rfl
    | cons y ys =>
      simp only [List.nil_append, List.cons_append, List.cons.injEq] at h
      exact absurd (h.1 ▸ List.mem_cons_self y ys) hb
  | cons x xs ih =>
    intro b u v ha hb h
    cases b with
    | nil =>
      simp only [List.cons_append, List.nil_append, List.cons.injEq] at h
      exact absurd (h.1 ▸ List.mem_cons_self x xs) ha
    | cons y ys =>
      simp only [List.cons_append, List.cons.injEq] at h
      have htail := ih ys u v (fun hm => ha (List.mem_cons_of_mem x hm))
        (fun hm => hb (List.mem_cons_of_mem y hm)) h.2
      rw [h.1, htail]

mutual

/-- Every key flattened under a nonempty prefix `p` either IS `p` or
extends `p` by an underscore (default separator). -/
theorem keysShape : ∀ (v : JSON) (p : String), p ≠ "" →
    ∀ s ∈ keysOf (flattenRecursive "_" v p),
      s = p ∨ ∃ t, s.data = p.data ++ '_' :: t
  | .null, p, _ => fun s hs => Or.inl (by simpa [flattenRecursive] using hs)
  | .bool _, p, _ => fun s hs => Or.inl (by simpa [flattenRecursive] using hs)
  | .num _, p, _ => fun s hs => Or.inl (by simpa [flattenRecursive] using hs)
  | .str _, p, _ => fun s hs => Or.inl (by simpa [flattenRecursive] using hs)
  | .arr .nil, p, _ => fun s hs =>
      Or.inl (by simpa [flattenRecursive] using hs)
  | .arr (.cons v0 rest), p, hp => fun s hs => by
      by_cases hobj : (JArr.cons v0 rest).allObj = true
      · rw [show flattenRecursive "_" (.arr (.cons v0 rest)) p =
            (unionKeys (.cons v0 rest)).map
              (fun k0 => (joinKey "_" p k0, colOf (.cons v0 rest) k0)) by
            rw [flattenRecursive, if_pos hobj]
            simp] at hs
        unfold keysOf at hs
        rw [List.map_map] at hs
        rcases List.mem_map.1 hs with ⟨k0, _, hk0⟩
        right
        exact ⟨k0.data, by rw [← hk0]; exact joinKey_data p k0 hp⟩
      · rw [show flattenRecursive "_" (.arr (.cons v0 rest)) p =
            [(p, (JArr.cons v0 rest).toList)] by
            rw [flattenRecursive, if_neg hobj]
            simp] at hs
        exact Or.inl (by simpa [keysOf] using hs)
  | .obj fs, p, hp => fun s hs => by
      rcases keysShapeFields fs p [] hp s hs with h | h
      · cases h
      · exact Or.inr h

/-- The accumulator form of `keysShape` for the dict branch: every key of
`flattenFields` is a key of the accumulator or extends `p` by an
underscore. -/
theorem keysShapeFields : ∀ (fs : JFields) (p : String) (acc : FlatRec),
    p ≠ "" →
    ∀ s ∈ keysOf (flattenFields "_" fs p acc),
      s ∈ keysOf acc ∨ ∃ t, s.data = p.data ++ '_' :: t
  | .nil, _, _, _ => fun _ hs => Or.inl hs
  | .cons k v rest, p, acc, hp => fun s hs => by
      rcases keysShapeFields rest p
          (dictUpdate acc (flattenRecursive "_" v (joinKey "_" p k))) hp s hs
        with h | h
      · rcases keysOf_dictUpdate _ _ s h with h2 | h2
        · exact Or.inl h2
        · rcases keysShape v (joinKey "_" p k) (joinKey_ne_empty p k hp) s h2
            with h3 | ⟨t, h3⟩
          · exact Or.inr ⟨k.data, by rw [h3]; exact joinKey_data p k hp⟩
          · refine Or.inr ⟨k.data ++ '_' :: t, ?_⟩
            rw [h3, joinKey_data p k hp]
            simp
      · exact Or.inr h

end

/-- Claim C9 (amended): the key sets contributed by two distinct top-level
keys are disjoint PROVIDED both keys are nonempty and neither contains the
separator character: every contributed key is the child's own (prefixed)
path, and underscore-free prefixes cancel uniquely around the first
separator.  (Without the proviso the claim fails — see the
counterexample.) -/
theorem claim_C9_prefixed_keys_disjoint (v1 v2 : JSON) (k1 k2 : String)
    (h1 : k1 ≠ "") (h2 : k2 ≠ "") (hne : k1 ≠ k2)
    (hu1 : '_' ∉ k1.data) (hu2 : '_' ∉ k2.data) :
    ∀ s, s ∈ keysOf (flattenRecursive "_" v1 k1) →
      s ∉ keysOf (flattenRecursive "_" v2 k2) := by
  intro s hm1 hm2
  rcases keysShape v1 k1 h1 s hm1 with he1 | ⟨t1, he1⟩
  · rcases keysShape v2 k2 h2 s hm2 with he2 | ⟨t2, he2⟩
    · exact hne (he1 ▸ he2)
    · rw [he1] at he2
      exact hu1 (he2 ▸ List.mem_append_right k2.data
        (List.mem_cons_self '_' t2))
  · rcases keysShape v2 k2 h2 s hm2 with he2 | ⟨t2, he2⟩
    · rw [he2] at he1
      exact hu2 (he1 ▸ List.mem_append_right k1.data
        (List.mem_cons_self '_' t1))
    · rw [he1] at he2
      exact hne (String.ext (sepChainEq k1.data k2.data t1 t2 hu1 hu2 he2))

/-- Claim C9 witness: children under the distinct underscore-free keys
`a` and `b` have disjoint key sets — the key `a` contributed by the first
child is not contributed by the second. -/
theorem claim_C9_witness :
    "a" ∈ keysOf (flattenRecursive "_" (JSON.num 1) "a") ∧
    "a" ∉ keysOf (flattenRecursive "_" (JSON.num 2) "b") :=
  ⟨by decide,
   claim_C9_prefixed_keys_disjoint (JSON.num 1) (JSON.num 2) "a" "b"
     (by decide) (by decide) (by decide) (by decide) (by decide) "a"
     (by decide)⟩

/-- Claim C9 (counterexample): without the proviso the claim is false —
in `\x7b"a": \x7b"b": 1\x7d, "a_b": 2\x7d` the child of top-level key `a`
contributes exactly the key `a_b`, which the sibling top-level key `a_b`
also contributes; the key sets collide and the merge loses the first
child's column (the flattened record keeps only `[2]`). -/
theorem claim_C9_counterexample :
    keysOf (flattenRecursive "_" (.obj (jobj [("b", .num 1)])) "a") =
      ["a_b"] ∧
    keysOf (flattenRecursive "_" (.num 2) "a_b") = ["a_b"] ∧
    flatten_json_to_columns
        (.obj (jobj [("a", .obj (jobj [("b", .num 1)])), ("a_b", .num 2)]))
        false "_" =
      [("a_b", [.num 2])] :=
  ⟨rfl, rfl, rfl⟩

/-! ## Sanity checks of the MD5 translation against RFC 1321 test
vectors (evaluated in the kernel). -/

example : md5hex (strBytes "") = "d41d8cd98f00b204e9800998ecf8427e" := by
  decide

example : md5hex (strBytes "abc") = "900150983cd24fb0d6963f7d28e17f72" := by
  decide
